import Mathlib

/-!
Verification of the mosaic core of the img-boxer repository
(`src/img_boxer.py`).

The Python functions `parse_aspect_ratio`, `resize_with_crop`,
`resize_with_padding`, `calculate_grid_size` and `create_image_mosaic`
are embedded shallowly:

* an image is a size together with a total pixel function;
* Python float values are modelled as exact rationals, `int(x)` is
  truncation toward zero (`pyInt`), `math.ceil (math.sqrt n)` and
  `math.ceil (n / cols)` are the exact integer ceilings of the exact
  real square root and quotient (`ceil_sqrt`, `ceil_div`);
* fallible Python code lives in `Except PyErr`; an uncaught
  exception propagating out of a loop is the `Except` monad
  returning the first error unchanged;
* from the Pillow library: `Image.new`, `Image.crop` and
  `Image.paste` are total and accept degenerate sizes, while
  `Image.resize` raises `ValueError ("height and width must be > 0")`
  when a requested dimension is zero, which is the one library
  failure the composition loop can hit;
* LANCZOS resampling only affects pixel values of fully resized
  cells, which no property below inspects; it is modelled by an
  explicit dimension-correct (nearest-neighbour style) resampling.
-/

set_option allowUnsafeReducibility true in
attribute [semireducible] Rat.mul Rat.inv Rat.add Rat.sub Rat.ofScientific

/-- An RGB pixel value. -/
abbrev Pix := ℕ × ℕ × ℕ

/-- The black fill colour (0, 0, 0) used by the source. -/
def black : Pix := (0, 0, 0)

/-- An in-memory raster image: width, height, and pixel contents.
Pixel lookups outside the image bounds are harmless junk values. -/
structure Image where
  width : ℕ
  height : ℕ
  pixel : ℕ → ℕ → Pix

/-- Pillow: `Image.new ('RGB', (w, h), c)` — a constant-colour canvas. -/
def Image.new (w h : ℕ) (c : Pix) : Image :=
  ⟨w, h, fun _ _ => c⟩

/-- Pillow: `image.crop ((l, t, r, b))` — the rectangle with corners
`(l, t)` (inclusive) and `(r, b)` (exclusive). -/
def Image.crop (img : Image) (l t r b : ℕ) : Image :=
  ⟨r - l, b - t, fun x y => img.pixel (l + x) (t + y)⟩

/-- Pillow: `canvas.paste (img, (px, py))` — overwrite the rectangle of
`canvas` starting at `(px, py)` with the pixels of `img`. -/
def Image.paste (canvas img : Image) (px py : ℕ) : Image :=
  ⟨canvas.width, canvas.height, fun x y =>
    if px ≤ x ∧ x < px + img.width ∧ py ≤ y ∧ y < py + img.height then
      img.pixel (x - px) (y - py)
    else
      canvas.pixel x y⟩

/-- The Python exceptions the embedded core can raise: Pillow's and the
core's own `ValueError`s, argparse's `ArgumentTypeError`, and
`ZeroDivisionError` from float division.  An exception is its kind
plus its message; nothing else is attached to it. -/
inductive PyErr where
  | valueError (msg : String)
  | argumentTypeError (msg : String)
  | zeroDivisionError (msg : String)
  deriving DecidableEq

/-- Python `int (x)` on a float: truncation toward zero. -/
def pyInt (q : ℚ) : ℤ :=
  if 0 ≤ q then ⌊q⌋ else -⌊-q⌋

/-- Value of a nonempty list of decimal digit characters. -/
def digitsVal? : List Char → Option ℕ
  | [] => none
  | cs => cs.foldlM (fun acc c => if c.isDigit then some (10 * acc + (c.toNat - 48)) else none) 0

/-- Python `str.split (sep)` for a one-character separator, over the
character list of the string (structural recursion). -/
def splitOnChar (sep : Char) : List Char → List (List Char)
  | [] => [[]]
  | c :: cs =>
    match splitOnChar sep cs, decide (c = sep) with
    | r, true => [] :: r
    | [], false => [[c]]
    | h :: t, false => (c :: h) :: t

/-- Python `float (s)` restricted to plain decimal literals
(optional sign, integer part, optional fractional part), which covers
every ratio component the claims exercise; the value is exact. -/
def pyFloat? (s : List Char) : Option ℚ :=
  let signBody : ℚ × List Char :=
    match s with
    | '-' :: rest => (-1, rest)
    | '+' :: rest => (1, rest)
    | cs => (1, cs)
  match splitOnChar '.' signBody.2 with
  | [a] => (digitsVal? a).map (fun v => signBody.1 * v)
  | [a, b] =>
    if a.isEmpty ∧ b.isEmpty then none
    else
      match (if a.isEmpty then some 0 else digitsVal? a),
            (if b.isEmpty then some 0 else digitsVal? b) with
      | some ip, some fp => some (signBody.1 * ((ip : ℚ) + (fp : ℚ) / (10 : ℚ) ^ b.length))
      | _, _ => none
  | _ => none

/-- Lines 11-17 of `img_boxer.py`: split the text on a colon, convert
both sides with `float`, return their quotient.  The `try` block catches
only `ValueError` (wrong number of parts, or a non-numeric part) and
converts it to `argparse.ArgumentTypeError`; the float division
`width / height` sits inside the `try` but raises `ZeroDivisionError`
when `height` is zero, which `except ValueError` does not catch, so it
escapes as-is. -/
def parse_aspect_ratio (s : String) : Except PyErr ℚ :=
  match (splitOnChar ':' s.data).mapM pyFloat? with
  | some [w, h] =>
    if h = 0 then .error (.zeroDivisionError "float division by zero")
    else .ok (w / h)
  | some _ => .error (.argumentTypeError "Aspect ratio must be in format W:H (e.g., 16:9)")
  | none => .error (.argumentTypeError "Aspect ratio must be in format W:H (e.g., 16:9)")

/-- Lines 19-34 of `img_boxer.py`: crop the image symmetrically so its
ratio matches `target_ratio`.  `int (...)` is `pyInt`, `// 2` is
natural division (both operands are nonnegative in each branch). -/
def resize_with_crop (image : Image) (target_ratio : ℚ) : Image :=
  let width := image.width
  let height := image.height
  let current_ratio : ℚ := (width : ℚ) / (height : ℚ)
  if target_ratio < current_ratio then
    let new_width := (pyInt ((height : ℚ) * target_ratio)).toNat
    let left := (width - new_width) / 2
    image.crop left 0 (left + new_width) height
  else if current_ratio < target_ratio then
    let new_height := (pyInt ((width : ℚ) / target_ratio)).toNat
    let top := (height - new_height) / 2
    image.crop 0 top width (top + new_height)
  else
    image

/-- Lines 36-57 of `img_boxer.py`: pad the image on a black canvas so
its ratio matches `target_ratio`. -/
def resize_with_padding (image : Image) (target_ratio : ℚ) : Image :=
  let width := image.width
  let height := image.height
  let current_ratio : ℚ := (width : ℚ) / (height : ℚ)
  if target_ratio < current_ratio then
    let new_height := (pyInt ((width : ℚ) / target_ratio)).toNat
    let new_image := Image.new width new_height black
    let paste_y := (new_height - height) / 2
    new_image.paste image 0 paste_y
  else if current_ratio < target_ratio then
    let new_width := (pyInt ((height : ℚ) * target_ratio)).toNat
    let new_image := Image.new new_width height black
    let paste_x := (new_width - width) / 2
    new_image.paste image paste_x 0
  else
    image

/-- Ascending search for the least `c` with `n ≤ c * c`, starting at
`c` with the given amount of fuel. -/
def sqrtSearch (n : ℕ) : ℕ → ℕ → ℕ
  | 0, c => c
  | fuel + 1, c => if n ≤ c * c then c else sqrtSearch n fuel (c + 1)

/-- Exact integer ceiling of the exact real square root of `n`, i.e.
the least `c` with `n ≤ c * c` (models `math.ceil (math.sqrt n)`). -/
def ceil_sqrt (n : ℕ) : ℕ :=
  sqrtSearch n n 0

/-- Exact integer ceiling of `a / b` (models `math.ceil (a / b)`). -/
def ceil_div (a b : ℕ) : ℕ :=
  (a + b - 1) / b

/-- Lines 59-67 of `img_boxer.py`: the grid for `n` images, as the pair
`(rows, cols)`. -/
def calculate_grid_size (n : ℕ) : ℕ × ℕ :=
  if n ≤ 1 then (1, 1)
  else
    let cols := ceil_sqrt n
    let rows := ceil_div n cols
    (rows, cols)

/-- Pillow: `image.resize ((w, h), LANCZOS)`.  Pillow raises
`ValueError ("height and width must be > 0")` when a requested
dimension is not positive; otherwise the result has exactly the
requested dimensions (resampled pixel values are modelled
nearest-neighbour style, see the header note). -/
def pil_resize (img : Image) (w h : ℕ) : Except PyErr Image :=
  if w = 0 ∨ h = 0 then .error (.valueError "height and width must be > 0")
  else .ok ⟨w, h, fun x y => img.pixel (x * img.width / w) (y * img.height / h)⟩

/-- Line 75: the row count of the mosaic grid for `n` images. -/
def mosaic_rows (n : ℕ) : ℕ :=
  (calculate_grid_size n).1

/-- Line 75: the column count of the mosaic grid for `n` images. -/
def mosaic_cols (n : ℕ) : ℕ :=
  (calculate_grid_size n).2

/-- Line 84: the fixed base cell height. -/
def BASE_HEIGHT : ℕ := 300

/-- Line 81: `cell_ratio = (target_ratio * rows) / cols`. -/
def mosaic_cell_ratio (n : ℕ) (t : ℚ) : ℚ :=
  (t * (mosaic_rows n : ℚ)) / (mosaic_cols n : ℚ)

/-- Line 86: `cell_width = int (cell_height * cell_ratio)`. -/
def mosaic_cell_width (n : ℕ) (t : ℚ) : ℤ :=
  pyInt ((BASE_HEIGHT : ℚ) * mosaic_cell_ratio n t)

/-- The cell width as a natural number (the Pillow size argument);
`mosaic_cell_width` is nonnegative whenever the target ratio is. -/
def mosaic_cell_widthN (n : ℕ) (t : ℚ) : ℕ :=
  (mosaic_cell_width n t).toNat

/-- Lines 94-114, one iteration of the placement loop for the entry
`p = (idx, img)`: the defensive `idx >= rows * cols` check (a `break`;
since `enumerate` yields strictly increasing indices, skipping every
later entry is the same as stopping), the crop-or-pad reconciliation,
the exact resize to the cell size, and the paste at the cell offset. -/
def mosaic_place (rows cols : ℕ) (cell_ratio : ℚ) (cell_width cell_height : ℕ)
    (crop_mode : Bool) (canvas : Image) (p : ℕ × Image) : Except PyErr Image :=
  if rows * cols ≤ p.1 then .ok canvas
  else
    match pil_resize
        (if crop_mode then resize_with_crop p.2 cell_ratio
         else resize_with_padding p.2 cell_ratio)
        cell_width cell_height with
    | .error e => .error e
    | .ok resized =>
      .ok (canvas.paste resized ((p.1 % cols) * cell_width) ((p.1 / cols) * cell_height))

/-- Lines 69-116 of `img_boxer.py`: `create_image_mosaic`.  An empty
input raises `ValueError ("No images provided")`; otherwise the black
canvas of size `(cell_width * cols, cell_height * rows)` is allocated
and every image is placed by `mosaic_place` in input order, any
exception escaping the loop unchanged. -/
def create_image_mosaic (images : List Image) (target_ratio : ℚ) (crop_mode : Bool) :
    Except PyErr Image :=
  match images with
  | [] => .error (.valueError "No images provided")
  | _ :: _ =>
    let n := images.length
    let canvas := Image.new (mosaic_cell_widthN n target_ratio * mosaic_cols n)
      (BASE_HEIGHT * mosaic_rows n) black
    images.enum.foldlM
      (mosaic_place (mosaic_rows n) (mosaic_cols n) (mosaic_cell_ratio n target_ratio)
        (mosaic_cell_widthN n target_ratio) BASE_HEIGHT crop_mode)
      canvas

/-- Whether a composition result is a successfully returned canvas. -/
def resultOk : Except PyErr Image → Bool
  | .ok _ => true
  | .error _ => false

/-- Width of the returned canvas (0 when the composition failed). -/
def mosaicWidth : Except PyErr Image → ℕ
  | .ok m => m.width
  | .error _ => 0

/-- Height of the returned canvas (0 when the composition failed). -/
def mosaicHeight : Except PyErr Image → ℕ
  | .ok m => m.height
  | .error _ => 0

/-- The exception carried by a failed composition result, if any. -/
def resultErr : Except PyErr Image → Option PyErr
  | .ok _ => none
  | .error e => some e

/-- Every pixel of `img` reappears unmodified in `r`, shifted by the
offset `(px, py)`. -/
def PreservesPixels (r img : Image) (px py : ℕ) : Prop :=
  ∀ x y, x < img.width → y < img.height → r.pixel (px + x) (py + y) = img.pixel x y

/-- The property claim C4 asserts of `reconcile_cell` under the crop
policy (`resize_with_crop`), for one image and target ratio: neither
dimension grows; an image already at the target ratio is returned
unchanged; a relatively wide image becomes the centered horizontal
slice of width `floor (height * t)` at full height; a relatively tall
image becomes the centered vertical slice of height
`floor (width / t)` at full width; and the resulting dimensions match
the target ratio within integer-rounding tolerance (the residual
`|width - height * t|` is below one pixel, or below `t` when the
rounding happened on the height). -/
def CropSpec (img : Image) (t : ℚ) : Prop :=
  (resize_with_crop img t).width ≤ img.width ∧
  (resize_with_crop img t).height ≤ img.height ∧
  ((img.width : ℚ) / (img.height : ℚ) = t → resize_with_crop img t = img) ∧
  (t < (img.width : ℚ) / (img.height : ℚ) →
    resize_with_crop img t =
      img.crop ((img.width - (pyInt ((img.height : ℚ) * t)).toNat) / 2) 0
        ((img.width - (pyInt ((img.height : ℚ) * t)).toNat) / 2 +
          (pyInt ((img.height : ℚ) * t)).toNat) img.height ∧
    (((resize_with_crop img t).width : ℤ)) = ⌊(img.height : ℚ) * t⌋ ∧
    (resize_with_crop img t).height = img.height) ∧
  ((img.width : ℚ) / (img.height : ℚ) < t →
    resize_with_crop img t =
      img.crop 0 ((img.height - (pyInt ((img.width : ℚ) / t)).toNat) / 2) img.width
        ((img.height - (pyInt ((img.width : ℚ) / t)).toNat) / 2 +
          (pyInt ((img.width : ℚ) / t)).toNat) ∧
    (resize_with_crop img t).width = img.width ∧
    (((resize_with_crop img t).height : ℤ)) = ⌊(img.width : ℚ) / t⌋) ∧
  |((resize_with_crop img t).width : ℚ) - ((resize_with_crop img t).height : ℚ) * t| < max 1 t

/-- The property claim C5 asserts of `reconcile_cell` under the pad
policy (`resize_with_padding`), for one image and target ratio:
neither dimension shrinks; an image already at the target ratio is
returned unchanged; a relatively wide image is pasted at vertical
offset `(new_height - height) / 2` onto a black canvas of height
`floor (width / t)`; a relatively tall image is pasted at horizontal
offset `(new_width - width) / 2` onto a black canvas of width
`floor (height * t)`; every original pixel is preserved unmodified in
the centered region; and the resulting dimensions match the target
ratio within integer-rounding tolerance. -/
def PadSpec (img : Image) (t : ℚ) : Prop :=
  img.width ≤ (resize_with_padding img t).width ∧
  img.height ≤ (resize_with_padding img t).height ∧
  ((img.width : ℚ) / (img.height : ℚ) = t → resize_with_padding img t = img) ∧
  (t < (img.width : ℚ) / (img.height : ℚ) →
    resize_with_padding img t =
      (Image.new img.width (pyInt ((img.width : ℚ) / t)).toNat black).paste img 0
        (((pyInt ((img.width : ℚ) / t)).toNat - img.height) / 2) ∧
    (resize_with_padding img t).width = img.width ∧
    (((resize_with_padding img t).height : ℤ)) = ⌊(img.width : ℚ) / t⌋) ∧
  ((img.width : ℚ) / (img.height : ℚ) < t →
    resize_with_padding img t =
      (Image.new (pyInt ((img.height : ℚ) * t)).toNat img.height black).paste img
        (((pyInt ((img.height : ℚ) * t)).toNat - img.width) / 2) 0 ∧
    (((resize_with_padding img t).width : ℤ)) = ⌊(img.height : ℚ) * t⌋ ∧
    (resize_with_padding img t).height = img.height) ∧
  PreservesPixels (resize_with_padding img t) img
    (((resize_with_padding img t).width - img.width) / 2)
    (((resize_with_padding img t).height - img.height) / 2) ∧
  |((resize_with_padding img t).width : ℚ) - ((resize_with_padding img t).height : ℚ) * t| <
    max 1 t

/-- A 1-by-1 test image. -/
def unitImg : Image :=
  ⟨1, 1, fun _ _ => (9, 9, 9)⟩

/-- A second, distinct 1-by-1 test image. -/
def unitImg2 : Image :=
  ⟨1, 1, fun _ _ => (1, 2, 3)⟩

/-- A 4-by-2 test image whose pixels are all distinct. -/
def wideImg : Image :=
  ⟨4, 2, fun x y => (x, y, 0)⟩

/-- A 2-by-4 test image whose pixels are all distinct. -/
def tallImg : Image :=
  ⟨2, 4, fun x y => (x, y, 1)⟩

/-- The canvas produced for a single 1-by-1 image at target ratio 1
(a black-backed 300-by-300 render of that image). -/
def mosaicCanvas1 : Image :=
  match create_image_mosaic [unitImg] 1 false with
  | .ok m => m
  | .error _ => Image.new 0 0 black

/-! ### Basic facts about the embedded primitives -/

lemma pyInt_of_nonneg {q : ℚ} (h : 0 ≤ q) : pyInt q = ⌊q⌋ :=
  if_pos h

lemma pyInt_nonneg {q : ℚ} (h : 0 ≤ q) : 0 ≤ pyInt q := by
  rw [pyInt_of_nonneg h]
  exact Int.floor_nonneg.2 h

lemma pyInt_cast_le {q : ℚ} (h : 0 ≤ q) : (pyInt q : ℚ) ≤ q := by
  rw [pyInt_of_nonneg h]
  exact Int.floor_le q

lemma lt_pyInt_add_one {q : ℚ} (h : 0 ≤ q) : q < (pyInt q : ℚ) + 1 := by
  rw [pyInt_of_nonneg h]
  exact Int.lt_floor_add_one q

lemma le_pyInt {q : ℚ} {z : ℤ} (h0 : 0 ≤ q) (h : (z : ℚ) ≤ q) : z ≤ pyInt q := by
  rw [pyInt_of_nonneg h0]
  exact Int.le_floor.2 h

lemma pyInt_toNat_cast {q : ℚ} (h : 0 ≤ q) : (((pyInt q).toNat : ℤ)) = pyInt q :=
  Int.toNat_of_nonneg (pyInt_nonneg h)

lemma pyInt_toNat_cast_rat {q : ℚ} (h : 0 ≤ q) : (((pyInt q).toNat : ℚ)) = ((pyInt q : ℤ) : ℚ) := by
  exact_mod_cast pyInt_toNat_cast h

lemma sqrtSearch_spec (n : ℕ) :
    ∀ fuel c, (∀ m, m < c → m * m < n) → n ≤ (c + fuel) * (c + fuel) →
      n ≤ sqrtSearch n fuel c * sqrtSearch n fuel c ∧
        ∀ m, m < sqrtSearch n fuel c → m * m < n := by
  intro fuel
  induction fuel with
  | zero =>
    intro c hmin hbig
    constructor
    · simpa [sqrtSearch] using hbig
    · simpa [sqrtSearch] using hmin
  | succ fuel ih =>
    intro c hmin hbig
    by_cases h : n ≤ c * c
    · constructor
      · simpa [sqrtSearch, h] using h
      · simpa [sqrtSearch, h] using hmin
    · have hmin' : ∀ m, m < c + 1 → m * m < n := by
        intro m hm
        rcases Nat.lt_succ_iff_lt_or_eq.1 hm with h' | h'
        · exact hmin m h'
        · subst h'
          omega
      have hbig' : n ≤ (c + 1 + fuel) * (c + 1 + fuel) := by
        have e : c + 1 + fuel = c + (fuel + 1) := by omega
        rw [e]
        exact hbig
      have := ih (c + 1) hmin' hbig'
      constructor
      · simpa [sqrtSearch, h] using this.1
      · simpa [sqrtSearch, h] using this.2

lemma ceil_sqrt_spec (n : ℕ) :
    n ≤ ceil_sqrt n * ceil_sqrt n ∧ ∀ m, m < ceil_sqrt n → m * m < n := by
  have h0 : n ≤ (0 + n) * (0 + n) := by
    cases n with
    | zero => simp
    | succ k =>
      have : k + 1 ≤ (k + 1) * (k + 1) := Nat.le_mul_of_pos_left _ (Nat.succ_pos k)
      simpa using this
  exact sqrtSearch_spec n n 0 (fun m hm => absurd hm (Nat.not_lt_zero m)) h0

lemma ceil_sqrt_pos (n : ℕ) (h : 0 < n) : 0 < ceil_sqrt n := by
  rcases Nat.eq_zero_or_pos (ceil_sqrt n) with h0 | h0
  · have := (ceil_sqrt_spec n).1
    rw [h0] at this
    omega
  · exact h0

lemma ceil_div_mul_ge {a b : ℕ} (hb : 0 < b) : a ≤ ceil_div a b * b := by
  unfold ceil_div
  have h1 := Nat.div_add_mod (a + b - 1) b
  have h2 := Nat.mod_lt (a + b - 1) hb
  rw [Nat.mul_comm]
  generalize hm : b * ((a + b - 1) / b) = m at h1 ⊢
  omega

lemma ceil_div_pos {a b : ℕ} (ha : 0 < a) (hb : 0 < b) : 0 < ceil_div a b := by
  unfold ceil_div
  exact Nat.div_pos (by omega) hb

lemma ceil_div_min {a b : ℕ} (ha : 0 < a) (hb : 0 < b) : b * (ceil_div a b - 1) < a := by
  unfold ceil_div
  have h1 := Nat.div_add_mod (a + b - 1) b
  have h2 := Nat.mod_lt (a + b - 1) hb
  rw [Nat.mul_comm, Nat.sub_one_mul]
  generalize hm : (a + b - 1) / b * b = m
  rw [Nat.mul_comm] at h1
  rw [hm] at h1
  omega

lemma grid_rows_pos (n : ℕ) : 0 < (calculate_grid_size n).1 := by
  unfold calculate_grid_size
  by_cases h : n ≤ 1
  · simp [h]
  · simp only [h, if_false]
    exact ceil_div_pos (by omega) (ceil_sqrt_pos n (by omega))

lemma grid_cols_pos (n : ℕ) : 0 < (calculate_grid_size n).2 := by
  unfold calculate_grid_size
  by_cases h : n ≤ 1
  · simp [h]
  · simp only [h, if_false]
    exact ceil_sqrt_pos n (by omega)

lemma grid_mul_ge (n : ℕ) : n ≤ (calculate_grid_size n).1 * (calculate_grid_size n).2 := by
  unfold calculate_grid_size
  by_cases h : n ≤ 1
  · simpa [h] using h
  · simp only [h, if_false]
    exact ceil_div_mul_ge (ceil_sqrt_pos n (by omega))

/-! ### Claims C2, C3, C6 -/

/-- C6: for every nonnegative integer `n`, `plan_grid n` (the source's
`calculate_grid_size`) returns a pair `(rows, cols)` of positive
integers with `rows * cols ≥ n`. -/
theorem C6_plan_grid_covers (n : ℕ) :
    0 < (calculate_grid_size n).1 ∧ 0 < (calculate_grid_size n).2 ∧
      n ≤ (calculate_grid_size n).1 * (calculate_grid_size n).2 :=
  ⟨grid_rows_pos n, grid_cols_pos n, grid_mul_ge n⟩

/-- C2, counterexample: the claim asserts `plan_grid 10 = (4, 3)` with
the pair ordered `(rows, cols)`, but the code computes
`cols = ceil (sqrt 10) = 4` and `rows = ceil (10 / 4) = 3` and returns
`(rows, cols) = (3, 4)`. -/
theorem C2_counterexample_plan_grid_ten :
    calculate_grid_size 10 = (3, 4) ∧ calculate_grid_size 10 ≠ (4, 3) := by
  decide

/-- C2 (amended): `plan_grid 1 = (1, 1)`, `plan_grid 4 = (2, 2)`,
`plan_grid 5 = (2, 3)` and `plan_grid 10 = (3, 4)`, the pair being
ordered `(rows, cols)`; and for every `n ≥ 2` the components are
computed by `cols = ceil (sqrt n)` and `rows = ceil (n / cols)`, stated
in exact integer terms: `cols` is the least integer whose square
reaches `n`, and `rows` is the least integer with `cols * rows ≥ n`. -/
theorem C2_plan_grid_values (n : ℕ) (h : 2 ≤ n) :
    calculate_grid_size 1 = (1, 1) ∧ calculate_grid_size 4 = (2, 2) ∧
    calculate_grid_size 5 = (2, 3) ∧ calculate_grid_size 10 = (3, 4) ∧
    ((calculate_grid_size n).2 - 1) * ((calculate_grid_size n).2 - 1) < n ∧
    n ≤ (calculate_grid_size n).2 * (calculate_grid_size n).2 ∧
    (calculate_grid_size n).2 * ((calculate_grid_size n).1 - 1) < n ∧
    n ≤ (calculate_grid_size n).2 * (calculate_grid_size n).1 := by
  refine ⟨by decide, by decide, by decide, by decide, ?_, ?_, ?_, ?_⟩ <;>
    · have hn1 : ¬n ≤ 1 := by omega
      have hc := ceil_sqrt_spec n
      have hcpos := ceil_sqrt_pos n (by omega)
      simp only [calculate_grid_size, hn1, if_false]
      first
      | exact hc.2 _ (by omega)
      | exact hc.1
      | exact ceil_div_min (by omega) hcpos
      | · rw [Nat.mul_comm]
          exact ceil_div_mul_ge hcpos

/-- C2, witness at `n = 10`. -/
theorem C2_plan_grid_values_witness :
    2 ≤ 10 ∧
    (calculate_grid_size 1 = (1, 1) ∧ calculate_grid_size 4 = (2, 2) ∧
    calculate_grid_size 5 = (2, 3) ∧ calculate_grid_size 10 = (3, 4) ∧
    ((calculate_grid_size 10).2 - 1) * ((calculate_grid_size 10).2 - 1) < 10 ∧
    10 ≤ (calculate_grid_size 10).2 * (calculate_grid_size 10).2 ∧
    (calculate_grid_size 10).2 * ((calculate_grid_size 10).1 - 1) < 10 ∧
    10 ≤ (calculate_grid_size 10).2 * (calculate_grid_size 10).1) :=
  ⟨by decide, C2_plan_grid_values 10 (by decide)⟩

/-- C3: the claim says a zero height component (such as `"4:0"`) fails
with the same invalid-argument error kind as malformed or non-numeric
text.  In the code the `except ValueError` handler does not catch the
`ZeroDivisionError` raised by `width / height`, so `"4:0"` escapes with
a `ZeroDivisionError`, a different error kind than the
`ArgumentTypeError` produced for `"abc:9"`. -/
theorem C3_parse_ratio_zero_height_uncaught :
    parse_aspect_ratio "4:0" = .error (.zeroDivisionError "float division by zero") ∧
    parse_aspect_ratio "abc:9" =
      .error (.argumentTypeError "Aspect ratio must be in format W:H (e.g., 16:9)") ∧
    PyErr.zeroDivisionError "float division by zero" ≠
      PyErr.argumentTypeError "Aspect ratio must be in format W:H (e.g., 16:9)" :=
  ⟨rfl, rfl, by decide⟩

/-! ### Dimension lemmas for the Pillow operations -/

@[simp] lemma Image.crop_width (img : Image) (l t r b : ℕ) : (img.crop l t r b).width = r - l :=
  rfl

@[simp] lemma Image.crop_height (img : Image) (l t r b : ℕ) : (img.crop l t r b).height = b - t :=
  rfl

lemma Image.crop_pixel (img : Image) (l t r b x y : ℕ) :
    (img.crop l t r b).pixel x y = img.pixel (l + x) (t + y) :=
  rfl

@[simp] lemma Image.paste_width (c i : Image) (px py : ℕ) : (c.paste i px py).width = c.width :=
  rfl

@[simp] lemma Image.paste_height (c i : Image) (px py : ℕ) : (c.paste i px py).height = c.height :=
  rfl

lemma Image.paste_pixel (c i : Image) (px py x y : ℕ) :
    (c.paste i px py).pixel x y =
      if px ≤ x ∧ x < px + i.width ∧ py ≤ y ∧ y < py + i.height then
        i.pixel (x - px) (y - py)
      else
        c.pixel x y :=
  rfl

@[simp] lemma Image.new_width (w h : ℕ) (c : Pix) : (Image.new w h c).width = w :=
  rfl

@[simp] lemma Image.new_height (w h : ℕ) (c : Pix) : (Image.new w h c).height = h :=
  rfl

/-! ### Branch analysis of the two reconciliation policies -/

lemma resize_with_crop_of_lt {img : Image} {t : ℚ}
    (h : t < (img.width : ℚ) / (img.height : ℚ)) :
    resize_with_crop img t =
      img.crop ((img.width - (pyInt ((img.height : ℚ) * t)).toNat) / 2) 0
        ((img.width - (pyInt ((img.height : ℚ) * t)).toNat) / 2 +
          (pyInt ((img.height : ℚ) * t)).toNat) img.height := by
  simp only [resize_with_crop]
  rw [if_pos h]

lemma resize_with_crop_of_gt {img : Image} {t : ℚ}
    (h : (img.width : ℚ) / (img.height : ℚ) < t) :
    resize_with_crop img t =
      img.crop 0 ((img.height - (pyInt ((img.width : ℚ) / t)).toNat) / 2) img.width
        ((img.height - (pyInt ((img.width : ℚ) / t)).toNat) / 2 +
          (pyInt ((img.width : ℚ) / t)).toNat) := by
  simp only [resize_with_crop]
  rw [if_neg (lt_asymm h), if_pos h]

lemma resize_with_crop_of_eq {img : Image} {t : ℚ}
    (h : (img.width : ℚ) / (img.height : ℚ) = t) :
    resize_with_crop img t = img := by
  simp only [resize_with_crop]
  rw [if_neg (by rw [h]; exact lt_irrefl t), if_neg (by rw [h]; exact lt_irrefl t)]

lemma resize_with_padding_of_lt {img : Image} {t : ℚ}
    (h : t < (img.width : ℚ) / (img.height : ℚ)) :
    resize_with_padding img t =
      (Image.new img.width (pyInt ((img.width : ℚ) / t)).toNat black).paste img 0
        (((pyInt ((img.width : ℚ) / t)).toNat - img.height) / 2) := by
  simp only [resize_with_padding]
  rw [if_pos h]

lemma resize_with_padding_of_gt {img : Image} {t : ℚ}
    (h : (img.width : ℚ) / (img.height : ℚ) < t) :
    resize_with_padding img t =
      (Image.new (pyInt ((img.height : ℚ) * t)).toNat img.height black).paste img
        (((pyInt ((img.height : ℚ) * t)).toNat - img.width) / 2) 0 := by
  simp only [resize_with_padding]
  rw [if_neg (lt_asymm h), if_pos h]

lemma resize_with_padding_of_eq {img : Image} {t : ℚ}
    (h : (img.width : ℚ) / (img.height : ℚ) = t) :
    resize_with_padding img t = img := by
  simp only [resize_with_padding]
  rw [if_neg (by rw [h]; exact lt_irrefl t), if_neg (by rw [h]; exact lt_irrefl t)]

/-! ### Rounding-tolerance helpers -/

lemma abs_pyInt_toNat_sub_lt {q : ℚ} (h : 0 ≤ q) : |((pyInt q).toNat : ℚ) - q| < 1 := by
  rw [pyInt_toNat_cast_rat h, abs_sub_lt_iff]
  constructor
  · have := pyInt_cast_le h
    linarith
  · have := lt_pyInt_add_one h
    linarith

lemma abs_sub_pyInt_toNat_mul_lt {w t : ℚ} (ht : 0 < t) (hw : 0 ≤ w) :
    |w - ((pyInt (w / t)).toNat : ℚ) * t| < t := by
  have hq : (0 : ℚ) ≤ w / t := div_nonneg hw (le_of_lt ht)
  rw [pyInt_toNat_cast_rat hq, abs_sub_lt_iff]
  have h1 : ((pyInt (w / t) : ℤ) : ℚ) ≤ w / t := pyInt_cast_le hq
  have h2 : w / t < ((pyInt (w / t) : ℤ) : ℚ) + 1 := lt_pyInt_add_one hq
  have h3 : ((pyInt (w / t) : ℤ) : ℚ) * t ≤ w := by
    rw [← le_div_iff ht]
    exact h1
  have h4 : w < (((pyInt (w / t) : ℤ) : ℚ) + 1) * t := by
    rw [← div_lt_iff ht]
    exact h2
  constructor
  · nlinarith
  · nlinarith

/-! ### Claims C4 and C5 -/

/-- C4: for every image with positive dimensions and positive target
ratio, `reconcile_cell` under the crop policy (`resize_with_crop`)
never increases either dimension, crops a centered slice keeping the
full other dimension and giving the truncated size
`floor (height * t)` resp. `floor (width / t)`, returns the image
unchanged when the current ratio equals the target, and leaves the
dimensions at the target ratio within integer-rounding tolerance. -/
theorem C4_reconcile_crop (img : Image) (t : ℚ) (hw : 0 < img.width)
    (hh : 0 < img.height) (ht : 0 < t) : CropSpec img t := by
  have hhQ : (0 : ℚ) < (img.height : ℚ) := by exact_mod_cast hh
  have hwQ : (0 : ℚ) < (img.width : ℚ) := by exact_mod_cast hw
  unfold CropSpec
  rcases lt_trichotomy t ((img.width : ℚ) / (img.height : ℚ)) with hA | hE | hB
  · -- relatively wide: the width is cropped
    have hres := resize_with_crop_of_lt hA
    have hq0 : (0 : ℚ) ≤ (img.height : ℚ) * t := by positivity
    have hlt : (img.height : ℚ) * t < (img.width : ℚ) := by
      have h1 : t * (img.height : ℚ) < (img.width : ℚ) := (lt_div_iff hhQ).1 hA
      rw [mul_comm] at h1
      exact h1
    have hnwle : (pyInt ((img.height : ℚ) * t)).toNat ≤ img.width := by
      have h2 : ((pyInt ((img.height : ℚ) * t) : ℤ) : ℚ) < (img.width : ℚ) :=
        lt_of_le_of_lt (pyInt_cast_le hq0) hlt
      have h3 : pyInt ((img.height : ℚ) * t) < (img.width : ℤ) := by exact_mod_cast h2
      omega
    have hwidth : (resize_with_crop img t).width = (pyInt ((img.height : ℚ) * t)).toNat := by
      rw [hres, Image.crop_width]
      omega
    have hheight : (resize_with_crop img t).height = img.height := by
      rw [hres, Image.crop_height]
      omega
    refine ⟨?_, ?_, ?_, ?_, ?_, ?_⟩
    · rw [hwidth]
      exact hnwle
    · exact le_of_eq hheight
    · intro hEq
      rw [hEq] at hA
      exact absurd hA (lt_irrefl t)
    · intro _
      refine ⟨hres, ?_, hheight⟩
      rw [hwidth, pyInt_toNat_cast hq0]
      exact pyInt_of_nonneg hq0
    · intro hB'
      exact absurd hB' (lt_asymm hA)
    · rw [hwidth, hheight]
      exact lt_of_lt_of_le (abs_pyInt_toNat_sub_lt hq0) (le_max_left 1 t)
  · -- ratios equal: unchanged
    have hres := resize_with_crop_of_eq hE.symm
    have hmul : (img.height : ℚ) * t = (img.width : ℚ) := by
      rw [hE]
      field_simp
    refine ⟨?_, ?_, ?_, ?_, ?_, ?_⟩
    · exact le_of_eq (by rw [hres])
    · exact le_of_eq (by rw [hres])
    · intro _
      exact hres
    · intro h'
      rw [← hE] at h'
      exact absurd h' (lt_irrefl t)
    · intro h'
      rw [← hE] at h'
      exact absurd h' (lt_irrefl t)
    · rw [hres, hmul]
      simp only [sub_self, abs_zero]
      exact lt_of_lt_of_le one_pos (le_max_left 1 t)
  · -- relatively tall: the height is cropped
    have hres := resize_with_crop_of_gt hB
    have hq0 : (0 : ℚ) ≤ (img.width : ℚ) / t := div_nonneg (le_of_lt hwQ) (le_of_lt ht)
    have hwq : (img.width : ℚ) / t < (img.height : ℚ) := by
      have h1 : (img.width : ℚ) < t * (img.height : ℚ) := (div_lt_iff hhQ).1 hB
      rw [mul_comm] at h1
      exact (div_lt_iff ht).2 h1
    have hnhle : (pyInt ((img.width : ℚ) / t)).toNat ≤ img.height := by
      have h2 : ((pyInt ((img.width : ℚ) / t) : ℤ) : ℚ) < (img.height : ℚ) :=
        lt_of_le_of_lt (pyInt_cast_le hq0) hwq
      have h3 : pyInt ((img.width : ℚ) / t) < (img.height : ℤ) := by exact_mod_cast h2
      omega
    have hwidth : (resize_with_crop img t).width = img.width := by
      rw [hres, Image.crop_width]
      omega
    have hheight : (resize_with_crop img t).height = (pyInt ((img.width : ℚ) / t)).toNat := by
      rw [hres, Image.crop_height]
      omega
    refine ⟨?_, ?_, ?_, ?_, ?_, ?_⟩
    · exact le_of_eq hwidth
    · rw [hheight]
      exact hnhle
    · intro hEq
      rw [hEq] at hB
      exact absurd hB (lt_irrefl t)
    · intro h'
      exact absurd h' (lt_asymm hB)
    · intro _
      refine ⟨hres, hwidth, ?_⟩
      rw [hheight, pyInt_toNat_cast hq0]
      exact pyInt_of_nonneg hq0
    · rw [hwidth, hheight]
      exact lt_of_lt_of_le (abs_sub_pyInt_toNat_mul_lt ht (le_of_lt hwQ)) (le_max_right 1 t)

/-- C4, witness at the 4-by-2 image and target ratio 1 (the image is
cropped to its centered 2-by-2 square). -/
theorem C4_reconcile_crop_witness :
    (0 < wideImg.width ∧ 0 < wideImg.height ∧ (0 : ℚ) < 1) ∧ CropSpec wideImg 1 :=
  ⟨⟨by decide, by decide, by decide⟩,
    C4_reconcile_crop wideImg 1 (by decide) (by decide) (by decide)⟩

/-- C5: for every image with positive dimensions and positive target
ratio, `reconcile_cell` under the pad policy (`resize_with_padding`)
never decreases either dimension, pastes the untouched original
centered on a black canvas sized to the target ratio (height
`floor (width / t)` when the image is relatively wide, width
`floor (height * t)` when relatively tall), preserves every original
pixel unmodified in the centered region, and leaves the dimensions at
the target ratio within integer-rounding tolerance. -/
theorem C5_reconcile_pad (img : Image) (t : ℚ) (hw : 0 < img.width)
    (hh : 0 < img.height) (ht : 0 < t) : PadSpec img t := by
  have hhQ : (0 : ℚ) < (img.height : ℚ) := by exact_mod_cast hh
  have hwQ : (0 : ℚ) < (img.width : ℚ) := by exact_mod_cast hw
  unfold PadSpec
  rcases lt_trichotomy t ((img.width : ℚ) / (img.height : ℚ)) with hA | hE | hB
  · -- relatively wide: vertical padding
    have hres := resize_with_padding_of_lt hA
    have hq0 : (0 : ℚ) ≤ (img.width : ℚ) / t := div_nonneg (le_of_lt hwQ) (le_of_lt ht)
    have hhq : (img.height : ℚ) < (img.width : ℚ) / t := by
      have h1 : t * (img.height : ℚ) < (img.width : ℚ) := (lt_div_iff hhQ).1 hA
      rw [mul_comm] at h1
      exact (lt_div_iff ht).2 h1
    have hnhge : img.height ≤ (pyInt ((img.width : ℚ) / t)).toNat := by
      have h1 : (img.height : ℤ) ≤ pyInt ((img.width : ℚ) / t) :=
        le_pyInt hq0 (by exact_mod_cast le_of_lt hhq)
      omega
    have hwidth : (resize_with_padding img t).width = img.width := by
      rw [hres, Image.paste_width, Image.new_width]
    have hheight : (resize_with_padding img t).height = (pyInt ((img.width : ℚ) / t)).toNat := by
      rw [hres, Image.paste_height, Image.new_height]
    refine ⟨?_, ?_, ?_, ?_, ?_, ?_, ?_⟩
    · exact le_of_eq hwidth.symm
    · rw [hheight]
      exact hnhge
    · intro hEq
      rw [hEq] at hA
      exact absurd hA (lt_irrefl t)
    · intro _
      refine ⟨hres, hwidth, ?_⟩
      rw [hheight, pyInt_toNat_cast hq0]
      exact pyInt_of_nonneg hq0
    · intro h'
      exact absurd h' (lt_asymm hA)
    · intro x y hx hy
      rw [hres]
      simp only [Image.paste_width, Image.new_width, Image.paste_height, Image.new_height,
        Nat.sub_self, Nat.zero_div]
      rw [Image.paste_pixel, if_pos (by omega)]
      have e1 : 0 + x - 0 = x := by omega
      have e2 : ((pyInt ((img.width : ℚ) / t)).toNat - img.height) / 2 + y -
          ((pyInt ((img.width : ℚ) / t)).toNat - img.height) / 2 = y := by omega
      rw [e1, e2]
    · rw [hwidth, hheight]
      exact lt_of_lt_of_le (abs_sub_pyInt_toNat_mul_lt ht (le_of_lt hwQ)) (le_max_right 1 t)
  · -- ratios equal: unchanged
    have hres := resize_with_padding_of_eq hE.symm
    have hmul : (img.height : ℚ) * t = (img.width : ℚ) := by
      rw [hE]
      field_simp
    refine ⟨?_, ?_, ?_, ?_, ?_, ?_, ?_⟩
    · exact le_of_eq (by rw [hres])
    · exact le_of_eq (by rw [hres])
    · intro _
      exact hres
    · intro h'
      rw [← hE] at h'
      exact absurd h' (lt_irrefl t)
    · intro h'
      rw [← hE] at h'
      exact absurd h' (lt_irrefl t)
    · intro x y hx hy
      rw [hres]
      simp only [Nat.sub_self, Nat.zero_div, Nat.zero_add]
    · rw [hres, hmul]
      simp only [sub_self, abs_zero]
      exact lt_of_lt_of_le one_pos (le_max_left 1 t)
  · -- relatively tall: horizontal padding
    have hres := resize_with_padding_of_gt hB
    have hq0 : (0 : ℚ) ≤ (img.height : ℚ) * t := by positivity
    have hwq : (img.width : ℚ) < (img.height : ℚ) * t := by
      have h1 : (img.width : ℚ) < t * (img.height : ℚ) := (div_lt_iff hhQ).1 hB
      rw [mul_comm] at h1
      exact h1
    have hnwge : img.width ≤ (pyInt ((img.height : ℚ) * t)).toNat := by
      have h1 : (img.width : ℤ) ≤ pyInt ((img.height : ℚ) * t) :=
        le_pyInt hq0 (by exact_mod_cast le_of_lt hwq)
      omega
    have hwidth : (resize_with_padding img t).width = (pyInt ((img.height : ℚ) * t)).toNat := by
      rw [hres, Image.paste_width, Image.new_width]
    have hheight : (resize_with_padding img t).height = img.height := by
      rw [hres, Image.paste_height, Image.new_height]
    refine ⟨?_, ?_, ?_, ?_, ?_, ?_, ?_⟩
    · rw [hwidth]
      exact hnwge
    · exact le_of_eq hheight.symm
    · intro hEq
      rw [hEq] at hB
      exact absurd hB (lt_irrefl t)
    · intro h'
      exact absurd h' (lt_asymm hB)
    · intro _
      refine ⟨hres, ?_, hheight⟩
      rw [hwidth, pyInt_toNat_cast hq0]
      exact pyInt_of_nonneg hq0
    · intro x y hx hy
      rw [hres]
      simp only [Image.paste_width, Image.new_width, Image.paste_height, Image.new_height,
        Nat.sub_self, Nat.zero_div]
      rw [Image.paste_pixel, if_pos (by omega)]
      have e1 : ((pyInt ((img.height : ℚ) * t)).toNat - img.width) / 2 + x -
          ((pyInt ((img.height : ℚ) * t)).toNat - img.width) / 2 = x := by omega
      have e2 : 0 + y - 0 = y := by omega
      rw [e1, e2]
    · rw [hwidth, hheight]
      exact lt_of_lt_of_le (abs_pyInt_toNat_sub_lt hq0) (le_max_left 1 t)

/-- C5, witness at the 2-by-4 image and target ratio 1 (the image is
pasted centered on a black 4-by-4 canvas). -/
theorem C5_reconcile_pad_witness :
    (0 < tallImg.width ∧ 0 < tallImg.height ∧ (0 : ℚ) < 1) ∧ PadSpec tallImg 1 :=
  ⟨⟨by decide, by decide, by decide⟩,
    C5_reconcile_pad tallImg 1 (by decide) (by decide) (by decide)⟩

/-! ### The composition loop -/

lemma ratio_shift (a C B R x t : ℚ) (hB : B ≠ 0) (hR : R ≠ 0) (hC : C ≠ 0)
    (hx : x = B * (t * R / C)) :
    a * C / (B * R) - t = (a - x) * (C / (B * R)) := by
  subst hx
  field_simp
  ring

lemma mosaic_place_ok (rows cols : ℕ) (cr : ℚ) (cw ch : ℕ) (cm : Bool) (hcw : cw ≠ 0)
    (hch : ch ≠ 0) (canvas : Image) (p : ℕ × Image) :
    ∃ c', mosaic_place rows cols cr cw ch cm canvas p = .ok c' ∧
      c'.width = canvas.width ∧ c'.height = canvas.height := by
  unfold mosaic_place
  by_cases h : rows * cols ≤ p.1
  · rw [if_pos h]
    exact ⟨canvas, rfl, rfl, rfl⟩
  · rw [if_neg h]
    unfold pil_resize
    rw [if_neg (by simp [hcw, hch])]
    exact ⟨_, rfl, rfl, rfl⟩

lemma foldlM_place_ok (rows cols : ℕ) (cr : ℚ) (cw ch : ℕ) (cm : Bool) (hcw : cw ≠ 0)
    (hch : ch ≠ 0) :
    ∀ (l : List (ℕ × Image)) (canvas : Image),
      ∃ c', List.foldlM (mosaic_place rows cols cr cw ch cm) canvas l = .ok c' ∧
        c'.width = canvas.width ∧ c'.height = canvas.height := by
  intro l
  induction l with
  | nil =>
    intro canvas
    exact ⟨canvas, rfl, rfl, rfl⟩
  | cons p rest ih =>
    intro canvas
    obtain ⟨c0, h0, hw0, hh0⟩ := mosaic_place_ok rows cols cr cw ch cm hcw hch canvas p
    obtain ⟨c1, h1, hw1, hh1⟩ := ih c0
    refine ⟨c1, ?_, by rw [hw1, hw0], by rw [hh1, hh0]⟩
    rw [List.foldlM_cons, h0]
    exact h1

lemma foldlM_place_err (rows cols : ℕ) (cr : ℚ) (ch : ℕ) (cm : Bool)
    (hpos : 0 < rows * cols) (img : Image) (l : List (ℕ × Image)) (canvas : Image) :
    List.foldlM (mosaic_place rows cols cr 0 ch cm) canvas ((0, img) :: l) =
      .error (.valueError "height and width must be > 0") := by
  rw [List.foldlM_cons]
  have h0 : mosaic_place rows cols cr 0 ch cm canvas (0, img) =
      .error (.valueError "height and width must be > 0") := by
    unfold mosaic_place
    rw [if_neg (by omega)]
    unfold pil_resize
    rw [if_pos (Or.inl rfl)]
  rw [h0]
  rfl

lemma create_image_mosaic_ok (t : ℚ) (cm : Bool) (img0 : Image) (rest : List Image)
    (hcw : mosaic_cell_widthN (img0 :: rest).length t ≠ 0) :
    ∃ m, create_image_mosaic (img0 :: rest) t cm = .ok m ∧
      m.width = mosaic_cell_widthN (img0 :: rest).length t * mosaic_cols (img0 :: rest).length ∧
      m.height = BASE_HEIGHT * mosaic_rows (img0 :: rest).length := by
  obtain ⟨m, hm, hw, hh⟩ :=
    foldlM_place_ok (mosaic_rows (img0 :: rest).length) (mosaic_cols (img0 :: rest).length)
      (mosaic_cell_ratio (img0 :: rest).length t) (mosaic_cell_widthN (img0 :: rest).length t)
      BASE_HEIGHT cm hcw (by decide) ((img0 :: rest).enum)
      (Image.new
        (mosaic_cell_widthN (img0 :: rest).length t * mosaic_cols (img0 :: rest).length)
        (BASE_HEIGHT * mosaic_rows (img0 :: rest).length) black)
  refine ⟨m, ?_, ?_, ?_⟩
  · unfold create_image_mosaic
    exact hm
  · rw [hw, Image.new_width]
  · rw [hh, Image.new_height]

lemma create_image_mosaic_err (t : ℚ) (cm : Bool) (img0 : Image) (rest : List Image)
    (hcw : mosaic_cell_widthN (img0 :: rest).length t = 0) :
    create_image_mosaic (img0 :: rest) t cm =
      .error (.valueError "height and width must be > 0") := by
  have hpos : 0 < mosaic_rows (img0 :: rest).length * mosaic_cols (img0 :: rest).length :=
    Nat.mul_pos (grid_rows_pos _) (grid_cols_pos _)
  have henum : (img0 :: rest).enum = (0, img0) :: rest.enumFrom 1 := rfl
  unfold create_image_mosaic
  dsimp only
  rw [hcw]
  exact foldlM_place_err (mosaic_rows (img0 :: rest).length) (mosaic_cols (img0 :: rest).length)
    (mosaic_cell_ratio (img0 :: rest).length t) BASE_HEIGHT cm hpos img0 (rest.enumFrom 1) _

/-! ### Claims C8, C7, C1, C9, C10 -/

/-- C8: composing an empty sequence of images fails with the
empty-input error (`ValueError ("No images provided")`), for every
target ratio and either policy flag, and no canvas is produced. -/
theorem C8_empty_input_error (t : ℚ) (cm : Bool) :
    create_image_mosaic [] t cm = .error (.valueError "No images provided") :=
  rfl

/-- C7 (amended): if resizing any single image fails — which in this
code happens exactly when the computed cell width is zero, the only
per-image failure the loop can hit — `compose_mosaic` aborts the whole
composition and returns no partial mosaic; the failure surfaces as the
resize step's own `ValueError`, propagated unwrapped: the code defines
no `CompositionError` and attaches no position information. -/
theorem C7_failure_aborts_composition (images : List Image) (t : ℚ) (cm : Bool)
    (hne : images ≠ []) (hcw : mosaic_cell_widthN images.length t = 0) :
    create_image_mosaic images t cm = .error (.valueError "height and width must be > 0") := by
  match images, hne with
  | img0 :: rest, _ =>
    exact create_image_mosaic_err t cm img0 rest hcw

/-- C7, witness: two 1-by-1 images at target ratio 1/1000. -/
theorem C7_failure_aborts_composition_witness :
    ([unitImg, unitImg2] ≠ [] ∧ mosaic_cell_widthN [unitImg, unitImg2].length (1 / 1000) = 0) ∧
    create_image_mosaic [unitImg, unitImg2] (1 / 1000) false =
      .error (.valueError "height and width must be > 0") :=
  ⟨⟨List.cons_ne_nil _ _, by decide⟩,
    C7_failure_aborts_composition [unitImg, unitImg2] (1 / 1000) false
      (List.cons_ne_nil _ _) (by decide)⟩

/-- C7, counterexample: in a failing composition the surfaced error is
byte-for-byte the bare Pillow resize error — a `ValueError` whose
entire content is the library message.  It is not a `CompositionError`
and carries no position of the offending image, contrary to the
claim. -/
theorem C7_counterexample_error_is_unwrapped :
    resultErr (create_image_mosaic [unitImg, unitImg2] (1 / 1000) false) =
      some (.valueError "height and width must be > 0") ∧
    resultErr (pil_resize
      (resize_with_padding unitImg (mosaic_cell_ratio [unitImg, unitImg2].length (1 / 1000)))
      (mosaic_cell_widthN [unitImg, unitImg2].length (1 / 1000)) BASE_HEIGHT) =
      some (.valueError "height and width must be > 0") :=
  ⟨by decide, by decide⟩

/-- C1 (amended): for a non-empty image list and positive target
ratio, the composition derives `cell_ratio = (t * rows) / cols`, fixes
`cell_height = 300`, computes `cell_width` by truncating
`cell_height * cell_ratio` to an integer (Python `int`, the floor for
positive values — not `round`), and, provided the truncated cell width
is at least 1, returns a canvas of dimensions exactly
`(cell_width * cols, cell_height * rows)`. -/
theorem C1_mosaic_dimensions (images : List Image) (t : ℚ) (cm : Bool)
    (hne : images ≠ []) (ht : 0 < t) (hcw : 1 ≤ mosaic_cell_width images.length t) :
    resultOk (create_image_mosaic images t cm) = true ∧
    mosaicWidth (create_image_mosaic images t cm) =
      mosaic_cell_widthN images.length t * mosaic_cols images.length ∧
    mosaicHeight (create_image_mosaic images t cm) =
      BASE_HEIGHT * mosaic_rows images.length ∧
    mosaic_cell_width images.length t =
      ⌊(BASE_HEIGHT : ℚ) * mosaic_cell_ratio images.length t⌋ ∧
    mosaic_cell_ratio images.length t =
      (t * (mosaic_rows images.length : ℚ)) / (mosaic_cols images.length : ℚ) ∧
    BASE_HEIGHT = 300 := by
  match images, hne with
  | img0 :: rest, _ =>
    have hcw' : mosaic_cell_widthN (img0 :: rest).length t ≠ 0 := by
      unfold mosaic_cell_widthN
      omega
    obtain ⟨m, hm, hwd, hht⟩ := create_image_mosaic_ok t cm img0 rest hcw'
    refine ⟨?_, ?_, ?_, ?_, rfl, rfl⟩
    · rw [hm]
      rfl
    · rw [hm]
      exact hwd
    · rw [hm]
      exact hht
    · unfold mosaic_cell_width
      apply pyInt_of_nonneg
      have h1 : 0 ≤ mosaic_cell_ratio (img0 :: rest).length t := by
        unfold mosaic_cell_ratio
        positivity
      positivity

/-- C1, witness: one 1-by-1 image at target ratio 1 yields a 300-by-300
canvas. -/
theorem C1_mosaic_dimensions_witness :
    ([unitImg] ≠ [] ∧ (0 : ℚ) < 1 ∧ 1 ≤ mosaic_cell_width [unitImg].length 1) ∧
    (resultOk (create_image_mosaic [unitImg] 1 false) = true ∧
     mosaicWidth (create_image_mosaic [unitImg] 1 false) =
       mosaic_cell_widthN [unitImg].length 1 * mosaic_cols [unitImg].length ∧
     mosaicHeight (create_image_mosaic [unitImg] 1 false) =
       BASE_HEIGHT * mosaic_rows [unitImg].length ∧
     mosaic_cell_width [unitImg].length 1 =
       ⌊(BASE_HEIGHT : ℚ) * mosaic_cell_ratio [unitImg].length 1⌋ ∧
     mosaic_cell_ratio [unitImg].length 1 =
       ((1 : ℚ) * (mosaic_rows [unitImg].length : ℚ)) / (mosaic_cols [unitImg].length : ℚ) ∧
     BASE_HEIGHT = 300) :=
  ⟨⟨List.cons_ne_nil _ _, by decide, by decide⟩,
    C1_mosaic_dimensions [unitImg] 1 false (List.cons_ne_nil _ _) (by decide) (by decide)⟩

/-- C1, counterexample: at target ratio 1007/3000 with one image the
canvas width is `int (300 * cell_ratio) = 100`, not
`round (300 * cell_ratio) * cols = 101`; and at target ratio 1/1000
no canvas is returned at all — the composition fails inside Pillow's
resize because the truncated cell width is 0. -/
theorem C1_counterexample_round_and_degenerate :
    mosaicWidth (create_image_mosaic [unitImg] (1007 / 3000) false) ≠
      (round ((BASE_HEIGHT : ℚ) * mosaic_cell_ratio [unitImg].length (1007 / 3000))).toNat *
        mosaic_cols [unitImg].length ∧
    resultErr (create_image_mosaic [unitImg] (1 / 1000) false) =
      some (.valueError "height and width must be > 0") :=
  ⟨by decide, by decide⟩

/-- C9: whenever `compose_mosaic` returns a canvas for a non-empty
image list and positive target ratio, the canvas's width/height ratio
differs from the target ratio by at most `cols / (cell_height * rows)`
— the error introduced by truncating the cell width to an integer. -/
theorem C9_mosaic_ratio_bound (images : List Image) (t : ℚ) (cm : Bool) (m : Image)
    (hne : images ≠ []) (ht : 0 < t)
    (hm : create_image_mosaic images t cm = .ok m) :
    |(m.width : ℚ) / (m.height : ℚ) - t| ≤
      (mosaic_cols images.length : ℚ) /
        ((BASE_HEIGHT : ℚ) * (mosaic_rows images.length : ℚ)) := by
  match images, hne with
  | img0 :: rest, _ =>
    have hcw : mosaic_cell_widthN (img0 :: rest).length t ≠ 0 := by
      intro h0
      rw [create_image_mosaic_err t cm img0 rest h0] at hm
      exact Except.noConfusion hm
    obtain ⟨m', hm', hwd, hht⟩ := create_image_mosaic_ok t cm img0 rest hcw
    rw [hm'] at hm
    obtain rfl : m' = m := Except.ok.inj hm
    have hRpos : (0 : ℚ) < (mosaic_rows (img0 :: rest).length : ℚ) := by
      exact_mod_cast grid_rows_pos (img0 :: rest).length
    have hCpos : (0 : ℚ) < (mosaic_cols (img0 :: rest).length : ℚ) := by
      exact_mod_cast grid_cols_pos (img0 :: rest).length
    have hBpos : (0 : ℚ) < (BASE_HEIGHT : ℚ) := by norm_num [BASE_HEIGHT]
    have hx0 : 0 ≤ (BASE_HEIGHT : ℚ) * mosaic_cell_ratio (img0 :: rest).length t := by
      have h1 : 0 ≤ mosaic_cell_ratio (img0 :: rest).length t := by
        unfold mosaic_cell_ratio
        positivity
      positivity
    have hcast : ((mosaic_cell_widthN (img0 :: rest).length t : ℕ) : ℚ) =
        ((pyInt ((BASE_HEIGHT : ℚ) * mosaic_cell_ratio (img0 :: rest).length t) : ℤ) : ℚ) :=
      pyInt_toNat_cast_rat hx0
    have h2 : ((pyInt ((BASE_HEIGHT : ℚ) * mosaic_cell_ratio (img0 :: rest).length t) : ℤ) : ℚ) ≤
        (BASE_HEIGHT : ℚ) * mosaic_cell_ratio (img0 :: rest).length t := pyInt_cast_le hx0
    have h3 : (BASE_HEIGHT : ℚ) * mosaic_cell_ratio (img0 :: rest).length t <
        ((pyInt ((BASE_HEIGHT : ℚ) * mosaic_cell_ratio (img0 :: rest).length t) : ℤ) : ℚ) + 1 :=
      lt_pyInt_add_one hx0
    rw [hwd, hht]
    have hcr : mosaic_cell_ratio (img0 :: rest).length t =
        (t * (mosaic_rows (img0 :: rest).length : ℚ)) /
          (mosaic_cols (img0 :: rest).length : ℚ) := rfl
    have hR0 : (mosaic_rows (img0 :: rest).length : ℚ) ≠ 0 := ne_of_gt hRpos
    have hC0 : (mosaic_cols (img0 :: rest).length : ℚ) ≠ 0 := ne_of_gt hCpos
    have hB0 : (BASE_HEIGHT : ℚ) ≠ 0 := ne_of_gt hBpos
    have key : ((mosaic_cell_widthN (img0 :: rest).length t *
          mosaic_cols (img0 :: rest).length : ℕ) : ℚ) /
          ((BASE_HEIGHT * mosaic_rows (img0 :: rest).length : ℕ) : ℚ) - t =
        (((mosaic_cell_widthN (img0 :: rest).length t : ℕ) : ℚ) -
            (BASE_HEIGHT : ℚ) * mosaic_cell_ratio (img0 :: rest).length t) *
          ((mosaic_cols (img0 :: rest).length : ℚ) /
            ((BASE_HEIGHT : ℚ) * (mosaic_rows (img0 :: rest).length : ℚ))) := by
      rw [Nat.cast_mul, Nat.cast_mul]
      exact ratio_shift _ _ _ _ _ t hB0 hR0 hC0 (by rw [hcr])
    rw [key, abs_mul]
    have habs2 : |(mosaic_cols (img0 :: rest).length : ℚ) /
        ((BASE_HEIGHT : ℚ) * (mosaic_rows (img0 :: rest).length : ℚ))| =
        (mosaic_cols (img0 :: rest).length : ℚ) /
          ((BASE_HEIGHT : ℚ) * (mosaic_rows (img0 :: rest).length : ℚ)) :=
      abs_of_nonneg (by positivity)
    rw [habs2]
    have habs1 : |((mosaic_cell_widthN (img0 :: rest).length t : ℕ) : ℚ) -
        (BASE_HEIGHT : ℚ) * mosaic_cell_ratio (img0 :: rest).length t| ≤ 1 := by
      rw [hcast, abs_sub_le_iff]
      constructor
      · linarith
      · linarith
    exact mul_le_of_le_one_left (by positivity) habs1

/-- C9, witness: one 1-by-1 image at target ratio 1. -/
theorem C9_mosaic_ratio_bound_witness :
    ([unitImg] ≠ [] ∧ (0 : ℚ) < 1 ∧
      create_image_mosaic [unitImg] 1 false = .ok mosaicCanvas1) ∧
    |(mosaicCanvas1.width : ℚ) / (mosaicCanvas1.height : ℚ) - 1| ≤
      (mosaic_cols [unitImg].length : ℚ) /
        ((BASE_HEIGHT : ℚ) * (mosaic_rows [unitImg].length : ℚ)) :=
  ⟨⟨List.cons_ne_nil _ _, by decide, rfl⟩,
    C9_mosaic_ratio_bound [unitImg] 1 false mosaicCanvas1 (List.cons_ne_nil _ _) (by decide) rfl⟩

/-- C10: a degenerate-ratio failure mode beyond the documented
empty-input error: there are a non-empty image list and a positive
target ratio (with cell ratio below 1/300) for which the truncated
cell width is 0, the allocated canvas has width
`cell_width * cols = 0`, and composing fails inside Pillow's resize,
which rejects the zero target width. -/
theorem C10_degenerate_ratio_zero_cell_width :
    ∃ (images : List Image) (t : ℚ), images ≠ [] ∧ 0 < t ∧
      mosaic_cell_ratio images.length t < 1 / 300 ∧
      mosaic_cell_width images.length t = 0 ∧
      mosaic_cell_widthN images.length t * mosaic_cols images.length = 0 ∧
      resultErr (create_image_mosaic images t false) =
        some (.valueError "height and width must be > 0") :=
  ⟨[unitImg], 1 / 1000, List.cons_ne_nil _ _, by decide, by decide, by decide, by decide,
    by decide⟩
